import Mathlib

/-!
# caddyexec: the `exec` event handler

A shallow embedding of `module.go` (package `caddyexec`): the `Handler`
configuration, `Provision`, `Handle` and `UnmarshalCaddyfile`, followed by
the properties established about them.

Conventions of the embedding:

* a Go `error` is an `Option GoError`, `none` being `nil`;
* `caddy.Duration` is an `int64` count of nanoseconds, modelled as `Int`
  (the code only compares it with zero and assigns a constant);
* running a command is the only interaction with the operating system; its
  outcome is supplied by a function `run : Cmd → RunResult`, and every
  property is stated for all such functions;
* what `Handle` does besides returning a value (running the command on the
  calling goroutine, starting a goroutine, calling a cancel function) is
  recorded, in program order, as a list of `Effect`s.
-/

namespace caddyexec

/-! ## Errors -/

/-- An error returned by `(*exec.Cmd).Run`: an `*exec.ExitError`, an
`*exec.Error` for a command that could not be started, a context or an I/O
error. Package `os/exec` knows nothing of the event sentinel, so none of
these values is, or unwraps to, `caddyevents.ErrAborted`. Only the text of
the error is kept. -/
structure CmdError where
  msg : String
deriving DecidableEq, Repr

/-- The error values that occur in this package. -/
inductive GoError where
  /-- The sentinel `caddyevents.ErrAborted`, a package-level variable. -/
  | ErrAborted : GoError
  /-- An error produced by running the command. -/
  | cmd (e : CmdError) : GoError
  /-- The value of `errors.New` or of `fmt.Errorf` without a `%w` verb. -/
  | errorString (s : String) : GoError
  /-- The value of `fmt.Errorf` with one `%w` verb: the formatted
  message and the wrapped operand. -/
  | wrapError (msg : String) (err : GoError) : GoError
  /-- The value of `(*caddyfile.Dispenser).ArgErr`, raised at the token
  with the given text; the file and line the dispenser adds to the message
  are left out. -/
  | ArgErr (val : String) : GoError
deriving DecidableEq, Repr

/-- The method `Error()`. The sentinel is declared in `caddyevents` as
`errors.New("event aborted")`. -/
def GoError.Error : GoError → String
  | .ErrAborted => "event aborted"
  | .cmd e => e.msg
  | .errorString s => s
  | .wrapError msg _ => msg
  | .ArgErr val =>
      if val = "\x7b" then "unexpected token \x27\x7b\x27, expecting argument"
      else "wrong argument count or unexpected line ending after \x27" ++ val ++ "\x27"

/-- The method `Unwrap()`, which only the value built by `%w` has. -/
def GoError.Unwrap : GoError → Option GoError
  | .wrapError _ err => some err
  | _ => none

/-- The function `errors.Is` for a non-nil first argument: it compares
`err` with `target`, then follows the `Unwrap` chain of `err`. -/
def errorsIs : GoError → GoError → Bool
  | .wrapError msg err, target =>
      decide (GoError.wrapError msg err = target) || errorsIs err target
  | err, target => decide (err = target)

/-- The text the verb `%v` produces for an error operand. -/
def sprintV : Option GoError → String
  | none => "<nil>"
  | some e => e.Error

/-- The call `fmt.Errorf("%w: %v", w, v)`. -/
def ErrorfWV (w : GoError) (v : Option GoError) : GoError :=
  .wrapError (w.Error ++ ": " ++ sprintV v) w

/-! ## The handler -/

/-- The type `caddy.Duration`, nanoseconds. -/
abbrev Duration := Int

/-- The constant `time.Second`. -/
def Second : Duration := 1000000000

/-- The struct `Handler`. The unexported `logger` field, set by
`Provision` before any event is handled, is the sink the background
goroutine writes to; what is written is recorded by `Effect.logError`. -/
structure Handler where
  Command : String
  Args : List String
  Dir : String
  Timeout : Duration
  Foreground : Bool
  AbortCodes : List Int
deriving DecidableEq, Repr

/-- The zero value of `Handler`, as produced by `new(Handler)`. -/
def Handler.zero : Handler :=
  { Command := "", Args := [], Dir := "", Timeout := 0, Foreground := false, AbortCodes := [] }

/-- The method `Provision`: the handler after the call and the error
returned. The timeout is defaulted before the abort codes are checked, so
it is set on the failing path too. -/
def Provision (eh : Handler) : Handler × Option GoError :=
  let eh := if eh.Timeout ≤ 0 then { eh with Timeout := 30 * Second } else eh
  if eh.AbortCodes.length > 0 && !eh.Foreground then
    (eh, some (.errorString "must run commands in foreground to apply abort codes"))
  else
    (eh, none)

/-! ## Contexts, commands and processes -/

/-- A `context.Context`: the context the event pipeline passes to the
handler, or one derived from a parent by `context.WithTimeout`. A derived
context is done when its parent is done, when its timeout elapses, or when
its cancel function is called. -/
inductive Context where
  | event (id : Nat) : Context
  | WithTimeout (parent : Context) (timeout : Duration) : Context
deriving DecidableEq, Repr

/-- The `*caddy.Replacer` stored in the context under
`caddy.ReplacerCtxKey`; `ReplaceAll input empty` expands the placeholders
of `input`. -/
structure Replacer where
  ReplaceAll : String → String → String

/-- The streams of the host process. -/
inductive Stream where
  | osStdout : Stream
  | osStderr : Stream
deriving DecidableEq, Repr

/-- The fields of `exec.Cmd` this package sets: the context, name and
arguments given to `exec.CommandContext`, and `Dir`, `Stdout`, `Stderr`.
A command bound to a context is killed when that context becomes done. -/
structure Cmd where
  ctx : Context
  name : String
  arg : List String
  Dir : String
  Stdout : Option Stream
  Stderr : Option Stream
deriving DecidableEq, Repr

/-- The call `exec.CommandContext(ctx, name, arg...)`. -/
def CommandContext (ctx : Context) (name : String) (arg : List String) : Cmd :=
  { ctx := ctx, name := name, arg := arg, Dir := "", Stdout := none, Stderr := none }

/-- How a started process ended: it exited with a status, or it was
terminated by a signal (as a process killed on cancellation is). -/
inductive WaitStatus where
  | exited (code : Nat) : WaitStatus
  | signaled (sig : Nat) : WaitStatus
deriving DecidableEq, Repr

/-- The method `ExitStatus()` of a wait status: `-1` unless the process
exited. -/
def WaitStatus.ExitStatus : WaitStatus → Int
  | .exited code => code
  | .signaled _ => -1

/-- The type `os.ProcessState`. -/
structure ProcessState where
  status : WaitStatus
deriving DecidableEq, Repr

/-- The method `(*os.ProcessState).ExitCode()`, which accepts a nil
receiver: `-1` when the process was never started. -/
def ProcessState.ExitCode : Option ProcessState → Int
  | none => -1
  | some p => p.status.ExitStatus

/-- What `cmd.Run()` leaves behind: the error it returns and the field
`cmd.ProcessState`, nil when no process was started. -/
structure RunResult where
  err : Option CmdError
  ProcessState : Option ProcessState
deriving DecidableEq, Repr

/-- The observable steps of the handler, in program order. -/
inductive Effect where
  /-- A call `cmd.Run()`. -/
  | run (cmd : Cmd) : Effect
  /-- A `go` statement starting the goroutine that executes
  `backgroundTask cmd`. -/
  | go (cmd : Cmd) : Effect
  /-- A call of the cancel function of the context `ctx`. -/
  | cancel (ctx : Context) : Effect
  /-- A call `eh.logger.Error(msg, zap.Error(err))`. -/
  | logError (msg : String) (err : GoError) : Effect
deriving DecidableEq, Repr

/-! ## Handle -/

/-- The loop `for i := range eh.Args` of `Handle`, over the indices
`0 .. len(eh.Args)-1`, writing into the slice made by
`make([]string, len(eh.Args))`. -/
def expandArgs (repl : Replacer) (Args : List String) : List String :=
  (List.range Args.length).foldl
    (fun expandedArgs i => expandedArgs.set i (repl.ReplaceAll (Args.getD i "") ""))
    (List.replicate Args.length "")

/-- The loop `for _, abortCode := range eh.AbortCodes` of `Handle`:
`some e` when the loop body returns `e`, `none` when the loop ends without
returning. -/
def abortLoop (exitCode : Int) (err : Option GoError) : List Int → Option GoError
  | [] => none
  | abortCode :: rest =>
      if exitCode = abortCode then some (ErrorfWV .ErrAborted err)
      else abortLoop exitCode err rest

/-- What one call of `Handle` yields: the command it constructed, its
effects in order (deferred calls last), and the error it returns. -/
structure HandleResult where
  cmd : Cmd
  effects : List Effect
  ret : Option GoError
deriving DecidableEq, Repr

/-- The method `Handle`. `ctx` is the context argument, `repl` the
replacer found in it (the event pipeline always stores one, so the type
assertion succeeds), `run` the outcome of running a command. The deferred
`cancel()` runs when `Handle` returns, on either branch. -/
def Handle (eh : Handler) (ctx : Context) (repl : Replacer) (run : Cmd → RunResult) :
    HandleResult :=
  let expandedArgs := expandArgs repl eh.Args
  let ctx1 := if eh.Timeout > 0 then Context.WithTimeout ctx eh.Timeout else ctx
  let deferred := if eh.Timeout > 0 then [Effect.cancel ctx1] else []
  let cmd : Cmd :=
    { CommandContext ctx1 eh.Command expandedArgs with
      Dir := eh.Dir, Stdout := some .osStdout, Stderr := some .osStderr }
  if eh.Foreground then
    let r := run cmd
    let err := r.err.map GoError.cmd
    let exitCode := ProcessState.ExitCode r.ProcessState
    match abortLoop exitCode err eh.AbortCodes with
    | some aborted => { cmd := cmd, effects := [Effect.run cmd] ++ deferred, ret := some aborted }
    | none => { cmd := cmd, effects := [Effect.run cmd] ++ deferred, ret := err }
  else
    { cmd := cmd, effects := [Effect.go cmd] ++ deferred, ret := none }

/-- The body of the goroutine started by `Handle` in background mode. -/
def backgroundTask (cmd : Cmd) (run : Cmd → RunResult) : List Effect :=
  match (run cmd).err with
  | some err => [Effect.run cmd, Effect.logError "background command failed" (.cmd err)]
  | none => [Effect.run cmd]

/-! ## The Caddyfile dispenser and UnmarshalCaddyfile

`UnmarshalCaddyfile` drives a `caddyfile.Dispenser`, a cursor over lexed
tokens. The methods it calls (`Next`, `NextArg`, `Val`, `RemainingArgs`,
`ArgErr`) belong to the `caddyfile` package and are transcribed here with
their helpers; a Go method that moves the cursor returns the dispenser it
leaves behind next to its result. -/

/-- A lexed token: the file and line it starts on, and its text. -/
structure Token where
  File : String
  Line : Nat
  Text : String
deriving DecidableEq, Repr

/-- The dispenser: the tokens and the index of the current one, `-1`
before the first call of `Next`. -/
structure Dispenser where
  tokens : List Token
  cursor : Int
deriving DecidableEq, Repr

/-- The constructor `caddyfile.NewDispenser`. -/
def NewDispenser (tokens : List Token) : Dispenser :=
  { tokens := tokens, cursor := -1 }

/-- The number of line breaks inside the text of a token. -/
def Token.NumLineBreaks (t : Token) : Nat :=
  t.Text.toList.count (Char.ofNat 10)

/-- The helper `isNextOnNewLine`: the second token is in another file, or
starts on a later line than the one the first token ends on. -/
def isNextOnNewLine (t1 t2 : Token) : Bool :=
  if t1.File ≠ t2.File then true
  else decide (t1.Line + t1.NumLineBreaks < t2.Line)

/-- The method `Next`: move to the next token if there is one. -/
def Dispenser.Next (d : Dispenser) : Bool × Dispenser :=
  if d.cursor < (d.tokens.length : Int) - 1 then
    (true, { d with cursor := d.cursor + 1 })
  else
    (false, d)

/-- The method `Val`: the text of the current token. -/
def Dispenser.Val (d : Dispenser) : String :=
  if d.cursor < 0 ∨ d.cursor ≥ (d.tokens.length : Int) then ""
  else
    match d.tokens[d.cursor.toNat]? with
    | some t => t.Text
    | none => ""

/-- The helper `nextOnSameLine`: move to the next token if it is on the
line of the current one. -/
def Dispenser.nextOnSameLine (d : Dispenser) : Bool × Dispenser :=
  if d.cursor < 0 then
    (true, { d with cursor := d.cursor + 1 })
  else if d.cursor ≥ (d.tokens.length : Int) - 1 then
    (false, d)
  else
    match d.tokens[d.cursor.toNat]?, d.tokens[(d.cursor + 1).toNat]? with
    | some curr, some next =>
        if !isNextOnNewLine curr next then (true, { d with cursor := d.cursor + 1 })
        else (false, d)
    | _, _ => (false, d)

/-- The method `NextArg`: move to the next token if it is on the same line
and is not a block opening; a block opening is rolled back. -/
def Dispenser.NextArg (d : Dispenser) : Bool × Dispenser :=
  let r := d.nextOnSameLine
  if !r.1 then (false, r.2)
  else if r.2.Val = "\x7b" then (false, { r.2 with cursor := r.2.cursor - 1 })
  else (true, r.2)

/-- The method `ArgErr`, raised at the current token. -/
def Dispenser.ArgErr (d : Dispenser) : GoError :=
  .ArgErr d.Val

/-- The loop `for d.NextArg()` of `RemainingArgs`, bounded by `fuel`
iterations; `none` when the bound is reached. -/
def Dispenser.RemainingArgsLoop : Nat → Dispenser → List String → Option (List String × Dispenser)
  | 0, _, _ => none
  | fuel + 1, d, args =>
      let r := d.NextArg
      if r.1 then Dispenser.RemainingArgsLoop fuel r.2 (args ++ [r.2.Val])
      else some (args, r.2)

/-- The method `RemainingArgs`: the arguments left on the line. Every
iteration but the last moves the cursor forward, so `len(tokens) + 2`
iterations are enough from any cursor a dispenser can have. -/
def Dispenser.RemainingArgs (d : Dispenser) : Option (List String × Dispenser) :=
  Dispenser.RemainingArgsLoop (d.tokens.length + 2) d []

/-- The loop `for d.Next()` of `UnmarshalCaddyfile`, bounded by `fuel`
iterations: the handler it leaves and the error it returns, or `none`
when a bound is reached. -/
def UnmarshalCaddyfileLoop : Nat → Handler → Dispenser → Option (Handler × Option GoError)
  | 0, _, _ => none
  | fuel + 1, eh, d =>
      let n := d.Next
      if !n.1 then some (eh, none)
      else
        let a := n.2.NextArg
        if !a.1 then some (eh, some a.2.ArgErr)
        else
          match a.2.RemainingArgs with
          | none => none
          | some r => UnmarshalCaddyfileLoop fuel { eh with Command := a.2.Val, Args := r.1 } r.2

/-- The method `UnmarshalCaddyfile`. Every iteration consumes a token, so
`len(tokens) + 1` iterations are enough. -/
def UnmarshalCaddyfile (eh : Handler) (d : Dispenser) : Option (Handler × Option GoError) :=
  UnmarshalCaddyfileLoop (d.tokens.length + 1) eh d

/-- The tokens of one line of a Caddyfile: the given texts, in order, all
starting on line `line` of `file`. -/
def lineTokens (file : String) (line : Nat) (texts : List String) : List Token :=
  texts.map (fun t => { File := file, Line := line, Text := t })

/-- Whether an effect is a call of `cmd.Run()`. -/
def Effect.isRun : Effect → Bool
  | .run _ => true
  | _ => false

/-- Whether an effect is a report written to the logger. -/
def Effect.isLogError : Effect → Bool
  | .logError _ _ => true
  | _ => false

/-- Whether an effect starts a goroutine. -/
def Effect.isGo : Effect → Bool
  | .go _ => true
  | _ => false

/-! ## Inputs used in the examples -/

/-- A replacer that maps the placeholder `{event.name}` to `tls_cert` and
leaves other inputs alone. -/
def exampleRepl : Replacer :=
  { ReplaceAll := fun input _ => if input = "\x7bevent.name\x7d" then "tls_cert" else input }

/-- A foreground handler aborting the event on exit code 2. -/
def abortOnTwo : Handler :=
  { Command := "check", Args := ["--strict"], Dir := "", Timeout := 30 * Second,
    Foreground := true, AbortCodes := [2] }

/-- The command exits with status 2. -/
def exitsWithTwo : Cmd → RunResult :=
  fun _ => { err := some { msg := "exit status 2" }, ProcessState := some { status := .exited 2 } }

/-- The command exits with status 1. -/
def exitsWithOne : Cmd → RunResult :=
  fun _ => { err := some { msg := "exit status 1" }, ProcessState := some { status := .exited 1 } }

/-- The command cannot be started: an error and no process state. -/
def cannotStart : Cmd → RunResult :=
  fun _ => { err := some { msg := "exec: no command" }, ProcessState := none }

/-- A foreground handler whose abort codes contain `-1`. -/
def abortOnMinusOne : Handler :=
  { Command := "nosuch", Args := [], Dir := "", Timeout := 30 * Second,
    Foreground := true, AbortCodes := [-1] }

/-- A provisioned background handler. -/
def sleeper : Handler :=
  { Command := "sleep", Args := ["5"], Dir := "", Timeout := 30 * Second,
    Foreground := false, AbortCodes := [] }

/-! ## Lemmas -/

theorem abortLoop_eq_some {exitCode : Int} {err : Option GoError} {codes : List Int}
    (h : exitCode ∈ codes) :
    abortLoop exitCode err codes = some (ErrorfWV .ErrAborted err) := by
  induction codes with
  | nil => cases h
  | cons a rest ih =>
    unfold abortLoop
    by_cases hc : exitCode = a
    · simp [hc]
    · rcases List.mem_cons.mp h with h1 | h1
      · exact absurd h1 hc
      · simp [hc, ih h1]

theorem abortLoop_eq_none {exitCode : Int} {err : Option GoError} {codes : List Int}
    (h : exitCode ∉ codes) : abortLoop exitCode err codes = none := by
  induction codes with
  | nil => rfl
  | cons a rest ih =>
    unfold abortLoop
    have hc : exitCode ≠ a := fun e => h (e ▸ List.mem_cons_self _ _)
    have hr : exitCode ∉ rest := fun e => h (List.mem_cons_of_mem _ e)
    simp [hc, ih hr]

theorem Handle_cmd (eh : Handler) (ctx : Context) (repl : Replacer) (run : Cmd → RunResult) :
    (Handle eh ctx repl run).cmd =
      { ctx := if eh.Timeout > 0 then Context.WithTimeout ctx eh.Timeout else ctx,
        name := eh.Command, arg := expandArgs repl eh.Args, Dir := eh.Dir,
        Stdout := some .osStdout, Stderr := some .osStderr } := by
  unfold Handle CommandContext
  by_cases hf : eh.Foreground = true
  · simp only [hf, if_true]
    split <;> rfl
  · simp [hf]

theorem Handle_foreground_ret (eh : Handler) (ctx : Context) (repl : Replacer)
    (run : Cmd → RunResult) (hf : eh.Foreground = true) :
    (Handle eh ctx repl run).ret =
      match abortLoop (ProcessState.ExitCode (run (Handle eh ctx repl run).cmd).ProcessState)
          ((run (Handle eh ctx repl run).cmd).err.map GoError.cmd) eh.AbortCodes with
      | some aborted => some aborted
      | none => (run (Handle eh ctx repl run).cmd).err.map GoError.cmd := by
  rw [Handle_cmd]
  unfold Handle CommandContext
  simp only [hf, if_true]
  split <;> rename_i h <;> simp [h]

theorem errorsIs_ErrorfWV (w : GoError) (v : Option GoError) :
    errorsIs (ErrorfWV w v) w = true := by
  unfold ErrorfWV errorsIs
  cases w <;> simp [errorsIs]

theorem expandArgs_fold_length (repl : Replacer) (Args : List String) (is : List Nat)
    (init : List String) :
    (is.foldl (fun expandedArgs i =>
        expandedArgs.set i (repl.ReplaceAll (Args.getD i "") "")) init).length = init.length := by
  induction is generalizing init with
  | nil => rfl
  | cons i rest ih => simp only [List.foldl_cons]; rw [ih]; exact List.length_set _ _ _

theorem expandArgs_fold_getElem? (repl : Replacer) (Args : List String) (k : Nat)
    (hk : k ≤ Args.length) (j : Nat) :
    ((List.range k).foldl (fun expandedArgs i =>
        expandedArgs.set i (repl.ReplaceAll (Args.getD i "") ""))
        (List.replicate Args.length ""))[j]? =
      if j < k then (Args[j]?).map (fun a => repl.ReplaceAll a "")
      else (List.replicate Args.length "")[j]? := by
  induction k with
  | zero => simp
  | succ k ih =>
    have hk1 : k < Args.length := hk
    rw [List.range_succ, List.foldl_append]
    simp only [List.foldl_cons, List.foldl_nil]
    rw [List.getElem?_set, expandArgs_fold_length, ih (Nat.le_of_lt hk1)]
    by_cases hjk : k = j
    · subst hjk
      have hget : Args[k]? = some Args[k] := List.getElem?_eq_getElem hk1
      simp [hk1, List.getD_eq_getElem?_getD, hget]
    · have hlt : (j < k + 1) = (j < k) := by
        apply propext; constructor <;> intro h <;> omega
      simp only [hjk, if_false, hlt]

theorem expandArgs_eq_map (repl : Replacer) (Args : List String) :
    expandArgs repl Args = Args.map (fun a => repl.ReplaceAll a "") := by
  apply List.ext_getElem?
  intro j
  unfold expandArgs
  rw [expandArgs_fold_getElem? repl Args Args.length (Nat.le_refl _) j, List.getElem?_map]
  by_cases hj : j < Args.length
  · simp [hj]
  · have hnone : Args[j]? = none := List.getElem?_eq_none (Nat.le_of_not_lt hj)
    simp [hj, hnone, Nat.le_of_not_lt hj]

theorem Handle_background (eh : Handler) (ctx : Context) (repl : Replacer)
    (run : Cmd → RunResult) (hf : eh.Foreground = false) :
    Handle eh ctx repl run =
      { cmd := (Handle eh ctx repl run).cmd,
        effects := [Effect.go (Handle eh ctx repl run).cmd] ++
          (if eh.Timeout > 0 then [Effect.cancel (Handle eh ctx repl run).cmd.ctx] else []),
        ret := none } := by
  rw [Handle_cmd]
  unfold Handle CommandContext
  simp [hf]

theorem lineTokens_length (file : String) (line : Nat) (texts : List String) :
    (lineTokens file line texts).length = texts.length := by
  simp [lineTokens]

theorem lineTokens_getElem? (file : String) (line : Nat) (texts : List String) (i : Nat) :
    (lineTokens file line texts)[i]? =
      (texts[i]?).map (fun t => { File := file, Line := line, Text := t }) := by
  simp [lineTokens]

theorem isNextOnNewLine_same_line (file : String) (line : Nat) (a b : String) :
    isNextOnNewLine { File := file, Line := line, Text := a }
      { File := file, Line := line, Text := b } = false := by
  simp [isNextOnNewLine]

theorem Val_lineTokens (file : String) (line : Nat) (texts : List String) (k : Nat) (t : String)
    (ht : texts[k]? = some t) :
    Dispenser.Val { tokens := lineTokens file line texts, cursor := (k : Int) } = t := by
  have hk : k < texts.length := by
    by_contra hn
    rw [List.getElem?_eq_none (Nat.le_of_not_lt hn)] at ht
    cases ht
  unfold Dispenser.Val
  have h1 : ¬ ((k : Int) < 0 ∨ (k : Int) ≥ ((lineTokens file line texts).length : Int)) := by
    rw [lineTokens_length]; omega
  simp only [h1, if_false, Int.toNat_ofNat, lineTokens_getElem?, ht, Option.map_some']

theorem NextArg_lineTokens_step (file : String) (line : Nat) (texts : List String) (k : Nat)
    (c t : String) (hc : texts[k]? = some c) (ht : texts[k + 1]? = some t) (hb : t ≠ "\x7b") :
    Dispenser.NextArg { tokens := lineTokens file line texts, cursor := (k : Int) } =
      (true, { tokens := lineTokens file line texts, cursor := (k : Int) + 1 }) := by
  have hk : k + 1 < texts.length := by
    by_contra hn
    rw [List.getElem?_eq_none (Nat.le_of_not_lt hn)] at ht
    cases ht
  have hstep : Dispenser.nextOnSameLine
      { tokens := lineTokens file line texts, cursor := (k : Int) } =
      (true, { tokens := lineTokens file line texts, cursor := (k : Int) + 1 }) := by
    unfold Dispenser.nextOnSameLine
    have h1 : ¬ ((k : Int) < 0) := by omega
    have h2 : ¬ ((k : Int) ≥ ((lineTokens file line texts).length : Int) - 1) := by
      rw [lineTokens_length]; omega
    have h3 : ((k : Int) + 1).toNat = k + 1 := by omega
    simp only [h1, h2, if_false, Int.toNat_ofNat, h3, lineTokens_getElem?, hc, ht,
      Option.map_some', isNextOnNewLine_same_line]
    simp
  unfold Dispenser.NextArg
  rw [hstep]
  have hv := Val_lineTokens file line texts (k + 1) t ht
  rw [Nat.cast_add, Nat.cast_one] at hv
  simp [hv, hb]

theorem NextArg_lineTokens_end (file : String) (line : Nat) (texts : List String) (k : Nat)
    (hk : texts.length = k + 1) :
    Dispenser.NextArg { tokens := lineTokens file line texts, cursor := (k : Int) } =
      (false, { tokens := lineTokens file line texts, cursor := (k : Int) }) := by
  have hstep : Dispenser.nextOnSameLine
      { tokens := lineTokens file line texts, cursor := (k : Int) } =
      (false, { tokens := lineTokens file line texts, cursor := (k : Int) }) := by
    unfold Dispenser.nextOnSameLine
    have h1 : ¬ ((k : Int) < 0) := by omega
    have h2 : (k : Int) ≥ ((lineTokens file line texts).length : Int) - 1 := by
      rw [lineTokens_length]; omega
    simp only [h1, h2, if_false, if_true]
  unfold Dispenser.NextArg
  rw [hstep]
  simp

theorem RemainingArgsLoop_lineTokens (file : String) (line : Nat) (rest : List String) :
    ∀ (pre : List String) (c : String) (acc : List String) (fuel : Nat),
      (∀ t ∈ rest, t ≠ "\x7b") → rest.length < fuel →
      Dispenser.RemainingArgsLoop fuel
          { tokens := lineTokens file line (pre ++ c :: rest), cursor := (pre.length : Int) } acc =
        some (acc ++ rest,
          { tokens := lineTokens file line (pre ++ c :: rest),
            cursor := (pre.length : Int) + (rest.length : Int) }) := by
  induction rest with
  | nil =>
    intro pre c acc fuel _ hfuel
    obtain ⟨f, rfl⟩ : ∃ f, fuel = f + 1 := ⟨fuel - 1, by simp at hfuel; omega⟩
    unfold Dispenser.RemainingArgsLoop
    rw [NextArg_lineTokens_end file line (pre ++ [c]) pre.length (by simp)]
    simp
  | cons t rest ih =>
    intro pre c acc fuel hne hfuel
    obtain ⟨f, rfl⟩ : ∃ f, fuel = f + 1 := ⟨fuel - 1, by simp at hfuel; omega⟩
    have ht : t ≠ "\x7b" := hne t (List.mem_cons_self _ _)
    have hrest : ∀ u ∈ rest, u ≠ "\x7b" := fun u hu => hne u (List.mem_cons_of_mem _ hu)
    have hc : (pre ++ c :: t :: rest)[pre.length]? = some c := by
      rw [List.getElem?_append_right (Nat.le_refl _)]; simp
    have ht1 : (pre ++ c :: t :: rest)[pre.length + 1]? = some t := by
      rw [List.getElem?_append_right (by omega)]; simp
    unfold Dispenser.RemainingArgsLoop
    rw [NextArg_lineTokens_step file line (pre ++ c :: t :: rest) pre.length c t hc ht1 ht]
    have hv := Val_lineTokens file line (pre ++ c :: t :: rest) (pre.length + 1) t ht1
    rw [Nat.cast_add, Nat.cast_one] at hv
    simp only [if_true, hv]
    have hlen : f > rest.length := by simp at hfuel; omega
    have key := ih (pre ++ [c]) t (acc ++ [t]) f hrest hlen
    have e1 : pre ++ [c] ++ t :: rest = pre ++ c :: t :: rest := by simp
    have e2 : (((pre ++ [c]).length : Nat) : Int) = (pre.length : Int) + 1 := by simp
    rw [e1, e2] at key
    rw [key]
    have e3 : (pre.length : Int) + 1 + (rest.length : Int) =
        (pre.length : Int) + ((t :: rest).length : Int) := by
      simp only [List.length_cons, Nat.cast_add, Nat.cast_one]; omega
    rw [e3]
    simp

theorem UnmarshalCaddyfileLoop_succ (fuel : Nat) (eh : Handler) (d : Dispenser) :
    UnmarshalCaddyfileLoop (fuel + 1) eh d =
      if !(d.Next).1 then some (eh, none)
      else if !((d.Next).2.NextArg).1 then some (eh, some ((d.Next).2.NextArg).2.ArgErr)
      else
        match ((d.Next).2.NextArg).2.RemainingArgs with
        | none => none
        | some r =>
            UnmarshalCaddyfileLoop fuel
              { eh with Command := ((d.Next).2.NextArg).2.Val, Args := r.1 } r.2 := by
  rfl

theorem UnmarshalCaddyfile_lineTokens (file : String) (line : Nat) (name c : String)
    (args : List String) (eh : Handler) (hne : ∀ t ∈ c :: args, t ≠ "\x7b") :
    UnmarshalCaddyfile eh (NewDispenser (lineTokens file line (name :: c :: args))) =
      some ({ eh with Command := c, Args := args }, none) := by
  have hc : c ≠ "\x7b" := hne c (List.mem_cons_self _ _)
  have hargs : ∀ t ∈ args, t ≠ "\x7b" := fun t ht => hne t (List.mem_cons_of_mem _ ht)
  unfold UnmarshalCaddyfile NewDispenser
  simp only [lineTokens_length, List.length_cons]
  rw [UnmarshalCaddyfileLoop_succ]
  have hnext : Dispenser.Next
      { tokens := lineTokens file line (name :: c :: args), cursor := -1 } =
      (true, { tokens := lineTokens file line (name :: c :: args), cursor := ((0 : Nat) : Int) }) := by
    unfold Dispenser.Next
    have h : (-1 : Int) < ((lineTokens file line (name :: c :: args)).length : Int) - 1 := by
      rw [lineTokens_length]; simp only [List.length_cons]; omega
    simp [h]
  rw [hnext]
  have hstep := NextArg_lineTokens_step file line (name :: c :: args) 0 name c (by simp) (by simp) hc
  have hval := Val_lineTokens file line (name :: c :: args) 1 c (by simp)
  have hrem := RemainingArgsLoop_lineTokens file line args [name] c [] (args.length + 1 + 1 + 2)
    hargs (by omega)
  simp only [List.singleton_append, List.length_singleton, List.nil_append] at hrem
  have hrem2 : Dispenser.RemainingArgs
      { tokens := lineTokens file line (name :: c :: args), cursor := ((0 : Nat) : Int) + 1 } =
      some (args, { tokens := lineTokens file line (name :: c :: args),
                    cursor := (1 : Int) + (args.length : Int) }) := by
    unfold Dispenser.RemainingArgs
    simp only [lineTokens_length, List.length_cons]
    have e : ((0 : Nat) : Int) + 1 = ((1 : Nat) : Int) := by simp
    rw [e, hrem]
    simp
  have hval2 : Dispenser.Val
      { tokens := lineTokens file line (name :: c :: args), cursor := ((0 : Nat) : Int) + 1 }
      = c := by
    have e : ((0 : Nat) : Int) + 1 = ((1 : Nat) : Int) := by simp
    rw [e]; exact hval
  simp only [hstep, hrem2, hval2, Bool.not_true, Bool.false_eq_true, if_false]
  rw [UnmarshalCaddyfileLoop_succ]
  have hlast : Dispenser.Next
      { tokens := lineTokens file line (name :: c :: args),
        cursor := (1 : Int) + (args.length : Int) } =
      (false, { tokens := lineTokens file line (name :: c :: args),
                cursor := (1 : Int) + (args.length : Int) }) := by
    unfold Dispenser.Next
    have h : ¬ ((1 : Int) + (args.length : Int) <
        ((lineTokens file line (name :: c :: args)).length : Int) - 1) := by
      rw [lineTokens_length]; simp only [List.length_cons]; push_cast; omega
    simp only [h, if_false]
  rw [hlast]
  simp

theorem UnmarshalCaddyfile_no_argument (file : String) (line : Nat) (name : String)
    (eh : Handler) :
    UnmarshalCaddyfile eh (NewDispenser (lineTokens file line [name])) =
      some (eh, some (.ArgErr name)) := by
  unfold UnmarshalCaddyfile NewDispenser
  simp only [lineTokens_length, List.length_cons, List.length_nil]
  rw [UnmarshalCaddyfileLoop_succ]
  have hnext : Dispenser.Next { tokens := lineTokens file line [name], cursor := -1 } =
      (true, { tokens := lineTokens file line [name], cursor := ((0 : Nat) : Int) }) := by
    unfold Dispenser.Next
    simp [lineTokens_length]
  rw [hnext]
  have hend := NextArg_lineTokens_end file line [name] 0 rfl
  have hval := Val_lineTokens file line [name] 0 name rfl
  rw [Nat.cast_zero] at hend hval
  simp [hend, Dispenser.ArgErr, hval]

/-! ## Provision -/

/-- Claim C3: `Provision` returns an error exactly when `AbortCodes` is
non-empty and `Foreground` is false, whatever the other fields are. -/
theorem Provision_error_iff (eh : Handler) :
    (Provision eh).2.isSome = true ↔ (eh.AbortCodes ≠ [] ∧ eh.Foreground = false) := by
  unfold Provision
  cases hA : eh.AbortCodes <;> cases hF : eh.Foreground <;> by_cases hT : eh.Timeout ≤ 0 <;>
    simp [hA, hF, hT]

/-- Claim C4: after `Provision` the timeout is 30 seconds
(30000000000 ns) when the configured value is at most zero and the
configured value otherwise, and it is strictly positive in every case. -/
theorem Provision_timeout (eh : Handler) :
    (Provision eh).1.Timeout = (if eh.Timeout ≤ 0 then 30 * Second else eh.Timeout)
      ∧ 30 * Second = (30000000000 : Int)
      ∧ 0 < (Provision eh).1.Timeout := by
  have h30 : 30 * Second = (30000000000 : Int) := by decide
  have hT : (Provision eh).1.Timeout = (if eh.Timeout ≤ 0 then 30 * Second else eh.Timeout) := by
    unfold Provision
    by_cases hT : eh.Timeout ≤ 0 <;> simp only [hT, if_true, if_false] <;> split <;> rfl
  refine ⟨hT, h30, ?_⟩
  rw [hT]
  by_cases h : eh.Timeout ≤ 0
  · simp only [h, if_true, h30]; decide
  · simp only [h, if_false]; exact not_le.mp h

/-! ## Handle in the foreground -/

/-- Claim C1: in the foreground, with `err` the error of running the
command and `c` its exit code, `Handle` returns an error for which
`errors.Is(_, ErrAborted)` holds (hence non-nil, also when `err` is nil)
if `c` is one of `AbortCodes`, and returns `err` itself, unchanged,
if `c` is none of them. -/
theorem Handle_foreground_abort (eh : Handler) (ctx : Context) (repl : Replacer)
    (run : Cmd → RunResult) (hf : eh.Foreground = true) :
    (ProcessState.ExitCode (run (Handle eh ctx repl run).cmd).ProcessState ∈ eh.AbortCodes →
        ∃ e, (Handle eh ctx repl run).ret = some e ∧ errorsIs e .ErrAborted = true)
      ∧ (ProcessState.ExitCode (run (Handle eh ctx repl run).cmd).ProcessState ∉ eh.AbortCodes →
        (Handle eh ctx repl run).ret = (run (Handle eh ctx repl run).cmd).err.map GoError.cmd) := by
  constructor
  · intro h
    refine ⟨ErrorfWV .ErrAborted ((run (Handle eh ctx repl run).cmd).err.map GoError.cmd), ?_,
      errorsIs_ErrorfWV _ _⟩
    rw [Handle_foreground_ret eh ctx repl run hf, abortLoop_eq_some h]
  · intro h
    rw [Handle_foreground_ret eh ctx repl run hf, abortLoop_eq_none h]

/-- Claim C1, at an input: with abort codes `[2]` and a command exiting
with status 2 the result is an aborted error. -/
theorem Handle_foreground_abort_witness :
    abortOnTwo.Foreground = true ∧
    (∃ e, (Handle abortOnTwo (.event 0) exampleRepl exitsWithTwo).ret = some e
      ∧ errorsIs e .ErrAborted = true) ∧
    (Handle abortOnTwo (.event 0) exampleRepl exitsWithOne).ret =
      some (.cmd { msg := "exit status 1" }) :=
  ⟨rfl,
    (Handle_foreground_abort abortOnTwo (.event 0) exampleRepl exitsWithTwo rfl).1 (by decide),
    (Handle_foreground_abort abortOnTwo (.event 0) exampleRepl exitsWithOne rfl).2 (by decide)⟩

/-- Claim C6, as stated, fails: with abort codes `[-1]` and a command
that cannot be started (no process state), `Handle` does not return the
plain launch error but an error wrapping the aborted sentinel. -/
theorem Handle_launch_error_aborted :
    (cannotStart (Handle abortOnMinusOne (.event 0) exampleRepl cannotStart).cmd).ProcessState
        = none
      ∧ (Handle abortOnMinusOne (.event 0) exampleRepl cannotStart).ret
        = some (.wrapError "event aborted: exec: no command" .ErrAborted)
      ∧ (Handle abortOnMinusOne (.event 0) exampleRepl cannotStart).ret
        ≠ some (.cmd { msg := "exec: no command" })
      ∧ errorsIs (.wrapError "event aborted: exec: no command" .ErrAborted) .ErrAborted = true := by
  decide

/-- Claim C6, amended: in the foreground, when the command cannot be
started (no process state), the exit code compared with the abort codes
is `-1`; if `-1` is not among `AbortCodes`, `Handle` returns the launch
error itself, which does not wrap the aborted sentinel, and if `-1` is
among them it returns the aborted error. -/
theorem Handle_launch_error (eh : Handler) (ctx : Context) (repl : Replacer)
    (run : Cmd → RunResult) (hf : eh.Foreground = true)
    (hps : (run (Handle eh ctx repl run).cmd).ProcessState = none) :
    ((-1 : Int) ∉ eh.AbortCodes →
        (Handle eh ctx repl run).ret = (run (Handle eh ctx repl run).cmd).err.map GoError.cmd
        ∧ ∀ e, (Handle eh ctx repl run).ret = some e → errorsIs e .ErrAborted = false)
      ∧ ((-1 : Int) ∈ eh.AbortCodes →
        (Handle eh ctx repl run).ret =
          some (ErrorfWV .ErrAborted ((run (Handle eh ctx repl run).cmd).err.map GoError.cmd))) := by
  have hc : ProcessState.ExitCode (run (Handle eh ctx repl run).cmd).ProcessState = -1 := by
    rw [hps]; rfl
  constructor
  · intro h
    have hret : (Handle eh ctx repl run).ret =
        (run (Handle eh ctx repl run).cmd).err.map GoError.cmd := by
      rw [Handle_foreground_ret eh ctx repl run hf, hc, abortLoop_eq_none h]
    refine ⟨hret, ?_⟩
    intro e he
    rw [hret] at he
    cases herr : (run (Handle eh ctx repl run).cmd).err with
    | none => rw [herr] at he; cases he
    | some c =>
      rw [herr] at he
      cases he
      simp [errorsIs]
  · intro h
    rw [Handle_foreground_ret eh ctx repl run hf, hc, abortLoop_eq_some h]

/-- Claim C6, amended, at an input: abort codes `[2]` and a command that
cannot be started give the launch error back. -/
theorem Handle_launch_error_witness :
    abortOnTwo.Foreground = true ∧
    (Handle abortOnTwo (.event 0) exampleRepl cannotStart).ret
      = some (.cmd { msg := "exec: no command" }) :=
  ⟨rfl, ((Handle_launch_error abortOnTwo (.event 0) exampleRepl cannotStart rfl rfl).1
    (by decide)).1⟩

/-- Claim C7, as stated, fails: with abort codes `[2]` and a command
exiting with status 2, the returned error reaches the aborted sentinel but
not the process error: `errors.Is(result, err)` is false. -/
theorem Handle_abort_not_wrapping_err :
    (exitsWithTwo (Handle abortOnTwo (.event 0) exampleRepl exitsWithTwo).cmd).err
        = some { msg := "exit status 2" }
      ∧ (Handle abortOnTwo (.event 0) exampleRepl exitsWithTwo).ret
        = some (.wrapError "event aborted: exit status 2" .ErrAborted)
      ∧ errorsIs (.wrapError "event aborted: exit status 2" .ErrAborted) .ErrAborted = true
      ∧ errorsIs (.wrapError "event aborted: exit status 2" .ErrAborted)
          (.cmd { msg := "exit status 2" }) = false := by
  decide

/-- Claim C7, amended: whenever the exit code is one of `AbortCodes`, the
error `Handle` returns in the foreground wraps the aborted sentinel only:
its `Unwrap` is `ErrAborted`, its message is the sentinel message, a
colon and the `%v` text of the process error, and no process error is
reachable through its unwrap chain. -/
theorem Handle_abort_wraps_sentinel (eh : Handler) (ctx : Context) (repl : Replacer)
    (run : Cmd → RunResult) (hf : eh.Foreground = true)
    (hc : ProcessState.ExitCode (run (Handle eh ctx repl run).cmd).ProcessState ∈ eh.AbortCodes) :
    ∃ r, (Handle eh ctx repl run).ret = some r
      ∧ r.Unwrap = some .ErrAborted
      ∧ r.Error = "event aborted: " ++
          sprintV ((run (Handle eh ctx repl run).cmd).err.map GoError.cmd)
      ∧ errorsIs r .ErrAborted = true
      ∧ ∀ e : CmdError, errorsIs r (.cmd e) = false := by
  refine ⟨ErrorfWV .ErrAborted ((run (Handle eh ctx repl run).cmd).err.map GoError.cmd), ?_, rfl,
    ?_, errorsIs_ErrorfWV _ _, ?_⟩
  · rw [Handle_foreground_ret eh ctx repl run hf, abortLoop_eq_some hc]
  · simp [ErrorfWV, GoError.Error]
  · intro e
    simp [ErrorfWV, errorsIs]

/-- Claim C7, amended, at an input: abort codes `[2]`, exit status 2. -/
theorem Handle_abort_wraps_sentinel_witness :
    abortOnTwo.Foreground = true ∧
    ∃ r, (Handle abortOnTwo (.event 0) exampleRepl exitsWithTwo).ret = some r
      ∧ r.Unwrap = some .ErrAborted
      ∧ r.Error = "event aborted: " ++
          sprintV ((exitsWithTwo (Handle abortOnTwo (.event 0) exampleRepl exitsWithTwo).cmd).err.map
            GoError.cmd)
      ∧ errorsIs r .ErrAborted = true
      ∧ ∀ e : CmdError, errorsIs r (.cmd e) = false :=
  ⟨rfl, Handle_abort_wraps_sentinel abortOnTwo (.event 0) exampleRepl exitsWithTwo rfl
    (by decide)⟩

/-! ## The constructed command -/

/-- Claim C2: the command `Handle` constructs, which is the one it runs
or hands to the goroutine, has the configured `Command` as its name,
untouched by the replacer, and as many arguments as `Args`, the i-th being
the replacer applied to `Args[i]`. -/
theorem Handle_cmd_args (eh : Handler) (ctx : Context) (repl : Replacer)
    (run : Cmd → RunResult) :
    (Handle eh ctx repl run).cmd.name = eh.Command
      ∧ (Handle eh ctx repl run).cmd.arg.length = eh.Args.length
      ∧ (∀ i : Nat, (Handle eh ctx repl run).cmd.arg[i]? =
          (eh.Args[i]?).map (fun a => repl.ReplaceAll a ""))
      ∧ (Handle eh ctx repl run).effects.head? =
          some (if eh.Foreground then Effect.run (Handle eh ctx repl run).cmd
            else Effect.go (Handle eh ctx repl run).cmd) := by
  refine ⟨?_, ?_, ?_, ?_⟩
  · rw [Handle_cmd]
  · rw [Handle_cmd]; simp [expandArgs_eq_map]
  · intro i
    rw [Handle_cmd]; simp [expandArgs_eq_map]
  · rw [Handle_cmd]
    unfold Handle CommandContext
    by_cases hf : eh.Foreground = true
    · simp only [hf, if_true]
      split <;> rfl
    · simp [hf]

/-! ## Handle in the background -/

/-- Claim C5: with `Foreground` false `Handle` returns nil for every
command, argument list, abort-code list and every outcome of running the
process. -/
theorem Handle_background_ret (eh : Handler) (ctx : Context) (repl : Replacer)
    (run : Cmd → RunResult) (hf : eh.Foreground = false) :
    (Handle eh ctx repl run).ret = none := by
  rw [Handle_background eh ctx repl run hf]

/-- Claim C5, at an input: a background command that cannot be started
and one that exits with status 2 both leave `Handle` returning nil. -/
theorem Handle_background_ret_witness :
    sleeper.Foreground = false ∧
    (Handle sleeper (.event 0) exampleRepl cannotStart).ret = none ∧
    (Handle sleeper (.event 0) exampleRepl exitsWithTwo).ret = none :=
  ⟨rfl, Handle_background_ret sleeper (.event 0) exampleRepl cannotStart rfl,
    Handle_background_ret sleeper (.event 0) exampleRepl exitsWithTwo rfl⟩

/-- Claim C8 fails on the code: for a provisioned background handler
(timeout 30 s) `Handle` starts the goroutine and then, on returning, runs
the deferred `cancel()` of the very context the background command is
bound to, so the command is cancelled by the return of `Handle`. -/
theorem Handle_background_cancels :
    (Handle sleeper (.event 0) exampleRepl exitsWithTwo).ret = none
      ∧ (Handle sleeper (.event 0) exampleRepl exitsWithTwo).cmd.ctx
        = .WithTimeout (.event 0) (30 * Second)
      ∧ (Handle sleeper (.event 0) exampleRepl exitsWithTwo).effects
        = [Effect.go (Handle sleeper (.event 0) exampleRepl exitsWithTwo).cmd,
           Effect.cancel (Handle sleeper (.event 0) exampleRepl exitsWithTwo).cmd.ctx] := by
  decide

/-- Claim C9: in the background `Handle` itself neither runs the command
nor logs; it starts one goroutine for the constructed command, and that
goroutine calls `Run` exactly once and writes exactly one failure report
when `Run` yields an error and none when it yields nil. -/
theorem background_reports (eh : Handler) (ctx : Context) (repl : Replacer)
    (run : Cmd → RunResult) (hf : eh.Foreground = false) :
    (Handle eh ctx repl run).effects.filter Effect.isGo
        = [Effect.go (Handle eh ctx repl run).cmd]
      ∧ (Handle eh ctx repl run).effects.countP Effect.isRun = 0
      ∧ (Handle eh ctx repl run).effects.countP Effect.isLogError = 0
      ∧ (backgroundTask (Handle eh ctx repl run).cmd run).countP Effect.isRun = 1
      ∧ (backgroundTask (Handle eh ctx repl run).cmd run).countP Effect.isLogError
        = (if (run (Handle eh ctx repl run).cmd).err.isSome then 1 else 0) := by
  have hb := Handle_background eh ctx repl run hf
  have he : (Handle eh ctx repl run).effects =
      [Effect.go (Handle eh ctx repl run).cmd] ++
        (if eh.Timeout > 0 then [Effect.cancel (Handle eh ctx repl run).cmd.ctx] else []) := by
    conv_lhs => rw [hb]
  refine ⟨?_, ?_, ?_, ?_, ?_⟩
  · rw [he]; by_cases ht : eh.Timeout > 0 <;> simp [ht, Effect.isGo]
  · rw [he]; by_cases ht : eh.Timeout > 0 <;> simp [ht, Effect.isRun]
  · rw [he]; by_cases ht : eh.Timeout > 0 <;> simp [ht, Effect.isLogError]
  · unfold backgroundTask
    cases (run (Handle eh ctx repl run).cmd).err <;> simp [Effect.isRun]
  · unfold backgroundTask
    cases (run (Handle eh ctx repl run).cmd).err <;> simp [Effect.isLogError]

/-- Claim C9, at an input: a background command exiting with status 2
is run once and reported once. -/
theorem background_reports_witness :
    sleeper.Foreground = false ∧
    (backgroundTask (Handle sleeper (.event 0) exampleRepl exitsWithTwo).cmd
      exitsWithTwo).countP Effect.isRun = 1 ∧
    (backgroundTask (Handle sleeper (.event 0) exampleRepl exitsWithTwo).cmd
      exitsWithTwo).countP Effect.isLogError = 1 :=
  ⟨rfl, (background_reports sleeper (.event 0) exampleRepl exitsWithTwo rfl).2.2.2.1,
    (background_reports sleeper (.event 0) exampleRepl exitsWithTwo rfl).2.2.2.2⟩

/-! ## UnmarshalCaddyfile -/

/-- Claim C10, as stated, fails: on the line `exec echo {` the token
after the command is a block opening, which `NextArg` does not accept as
an argument; `UnmarshalCaddyfile` returns an argument error instead of
command `echo` with the argument `{`. -/
theorem UnmarshalCaddyfile_block_opening :
    UnmarshalCaddyfile Handler.zero
        (NewDispenser (lineTokens "Caddyfile" 1 ["exec", "echo", "\x7b"]))
      = some ({ Handler.zero with Command := "echo" }, some (.ArgErr "\x7b"))
    ∧ UnmarshalCaddyfile Handler.zero
        (NewDispenser (lineTokens "Caddyfile" 1 ["exec", "echo", "\x7b"]))
      ≠ some ({ Handler.zero with Command := "echo", Args := ["\x7b"] }, none) := by
  decide

/-- Claim C10, amended: for a directive line made of the directive name
followed by tokens `c, a1, ..., an`, none of which is the block opening
`{`, `UnmarshalCaddyfile` on a zero-valued handler succeeds with
`Command = c` and `Args = [a1, ..., an]`, the other fields staying zero,
so that `Provision` then succeeds with the 30-second timeout; and for a
line holding the directive name alone it returns an argument error. -/
theorem UnmarshalCaddyfile_short_form (file : String) (line : Nat) (name c : String)
    (args : List String) (hne : ∀ t ∈ c :: args, t ≠ "\x7b") :
    UnmarshalCaddyfile Handler.zero (NewDispenser (lineTokens file line (name :: c :: args)))
        = some ({ Command := c, Args := args, Dir := "", Timeout := 0, Foreground := false,
                  AbortCodes := [] }, none)
      ∧ Provision { Command := c, Args := args, Dir := "", Timeout := 0, Foreground := false,
                    AbortCodes := [] }
        = ({ Command := c, Args := args, Dir := "", Timeout := 30 * Second,
             Foreground := false, AbortCodes := [] }, none)
      ∧ UnmarshalCaddyfile Handler.zero (NewDispenser (lineTokens file line [name]))
        = some (Handler.zero, some (.ArgErr name)) := by
  refine ⟨?_, ?_, UnmarshalCaddyfile_no_argument file line name Handler.zero⟩
  · rw [UnmarshalCaddyfile_lineTokens file line name c args Handler.zero hne]
    rfl
  · simp [Provision]

/-- Claim C10, amended, at an input: `exec foo bar baz` gives command
`foo` and arguments `bar`, `baz`. -/
theorem UnmarshalCaddyfile_short_form_witness :
    (∀ t ∈ ["foo", "bar", "baz"], t ≠ "\x7b") ∧
    UnmarshalCaddyfile Handler.zero
        (NewDispenser (lineTokens "Caddyfile" 1 ["exec", "foo", "bar", "baz"]))
      = some ({ Command := "foo", Args := ["bar", "baz"], Dir := "", Timeout := 0,
                Foreground := false, AbortCodes := [] }, none) :=
  ⟨by decide,
    (UnmarshalCaddyfile_short_form "Caddyfile" 1 "exec" "foo" ["bar", "baz"] (by decide)).1⟩

end caddyexec
